import Mathlib

set_option autoImplicit false

/-
Shallow embedding of the memory-thinking server core (Knowledge Graph Store,
Thought Chain Store, Orchestrator) from src/unnamed/part_000.

Modelling conventions:
- JavaScript numbers are modelled as Rat (NaN/Infinity are not needed by any
  property considered here).
- Date.now() and generateId() are modelled by explicit parameters now / freshId.
- The two backing files are modelled as Except values: .ok g is a readable file
  holding state g (a missing file is already folded into the empty state by the
  source's ENOENT handler), .error msg is a file whose load throws.
- JS Record objects are modelled as association lists with first-key-wins
  lookup and in-place update.
-/

namespace MemoryThinking

/-- Entity record of the knowledge graph (part_000 lines 33-37). -/
structure Entity where
  name : String
  entityType : String
  observations : List String
deriving DecidableEq

/-- Relation record of the knowledge graph (part_000 lines 39-43). -/
structure Relation where
  «from» : String
  «to» : String
  relationType : String
deriving DecidableEq

/-- The knowledge graph (part_000 lines 45-48). -/
structure KnowledgeGraph where
  entities : List Entity
  relations : List Relation
deriving DecidableEq

/-- ThoughtData together with the two extra MemoryThinkingInput flags
(part_000 lines 51-63 and 75-78); storeThought spreads every input field into
the stored record, so the stored thought carries the flags too. -/
structure ThoughtData where
  thought : String
  thoughtNumber : Rat
  totalThoughts : Rat
  isRevision : Option Bool := none
  revisesThought : Option Rat := none
  branchFromThought : Option Rat := none
  branchId : Option String := none
  needsMoreThoughts : Option Bool := none
  nextThoughtNeeded : Bool
  context : Option String := none
  timestamp : Option Nat := none
  storeInMemory : Option Bool := none
  retrieveFromMemory : Option Bool := none
deriving DecidableEq

/-- A thought chain (part_000 lines 65-72). -/
structure ThoughtChain where
  id : String
  context : String
  thoughts : List ThoughtData
  branches : List (String × List ThoughtData)
  createdAt : Nat
  updatedAt : Nat
deriving DecidableEq

/-- Lookup in a JS Record object modelled as an association list. -/
def getKey {α : Type} (m : List (String × α)) (k : String) : Option α :=
  match m with
  | [] => none
  | (k2, v) :: rest => if k2 == k then some v else getKey rest k

/-- Assignment obj[k] = v on a JS Record object. -/
def setKey {α : Type} (m : List (String × α)) (k : String) (v : α) :
    List (String × α) :=
  match m with
  | [] => [(k, v)]
  | (k2, v2) :: rest =>
    if k2 == k then (k, v) :: rest else (k2, v2) :: setKey rest k v

/-- JS truthiness of an optional string field (undefined and "" are falsy). -/
def truthyStr : Option String → Bool
  | some s => s != ""
  | none => false

/-- JS truthiness of an optional number field (undefined and 0 are falsy). -/
def truthyNum : Option Rat → Bool
  | some q => q != 0
  | none => false

/-- JS truthiness of an optional boolean field (undefined is falsy). -/
def truthyBool : Option Bool → Bool
  | some b => b
  | none => false

/-- JS expression x || dflt for an optional string field. -/
def orElseStr (v : Option String) (dflt : String) : String :=
  match v with
  | some s => if s == "" then dflt else s
  | none => dflt

/-- Character sequence of s.toLowerCase() (JS toLowerCase lowercases per
character; modelled at the character-list level). -/
def lowerChars (s : String) : List Char := s.data.map Char.toLower

/-- Case-insensitive containment hay.toLowerCase().includes(needle.toLowerCase()). -/
def lcIncludes (hay needle : String) : Bool :=
  decide (lowerChars needle <:+: lowerChars hay)

/- Knowledge Graph Store operations. Each source method loads the whole graph,
mutates it in memory and rewrites the whole file; here the graph value is
threaded explicitly, returning the saved graph next to the method result. -/

/-- KnowledgeGraphManager.createEntities (part_000 lines 108-114). -/
def createEntities (g : KnowledgeGraph) (entities : List Entity) :
    KnowledgeGraph × List Entity :=
  let newEntities :=
    entities.filter (fun e => !(g.entities.any (fun ex => ex.name == e.name)))
  ({ g with entities := g.entities ++ newEntities }, newEntities)

/-- KnowledgeGraphManager.createRelations (part_000 lines 116-128). -/
def createRelations (g : KnowledgeGraph) (relations : List Relation) :
    KnowledgeGraph × List Relation :=
  let newRelations := relations.filter (fun r =>
    !(g.relations.any (fun ex =>
      ex.«from» == r.«from» && ex.«to» == r.«to» && ex.relationType == r.relationType)))
  ({ g with relations := g.relations ++ newRelations }, newRelations)

/-- One iteration body of the map in addObservations (part_000 lines 132-140):
filter the contents against the entity's current observations, then push. -/
def addObsEntity (e : Entity) (contents : List String) : Entity × List String :=
  let newObservations := contents.filter (fun c => !(e.observations.contains c))
  ({ e with observations := e.observations ++ newObservations }, newObservations)

/-- In-place mutation of the entity object found by Array.prototype.find:
replace the first entity carrying the given name. -/
def replaceFirst (es : List Entity) (n : String) (e2 : Entity) : List Entity :=
  match es with
  | [] => []
  | e :: rest => if e.name == n then e2 :: rest else e :: replaceFirst rest n e2

/-- The sequential map over batch items in addObservations (part_000 lines
132-140); a missing entity throws, aborting the remaining items. -/
def addObsLoop (es : List Entity) :
    List (String × List String) →
      Except String (List Entity × List (String × List String))
  | [] => .ok (es, [])
  | (entityName, contents) :: rest =>
    match es.find? (fun e => e.name == entityName) with
    | none => .error ("Entity with name " ++ entityName ++ " not found")
    | some e =>
      let step := addObsEntity e contents
      match addObsLoop (replaceFirst es entityName step.1) rest with
      | .error msg => .error msg
      | .ok (es2, results) => .ok (es2, (entityName, step.2) :: results)

/-- KnowledgeGraphManager.addObservations (part_000 lines 130-143) at store
level: a thrown EntityNotFound aborts before saveGraph, so the persisted graph
is returned unchanged; on success the whole graph is rewritten. -/
def addObservations (g : KnowledgeGraph) (batch : List (String × List String)) :
    KnowledgeGraph × Except String (List (String × List String)) :=
  match addObsLoop g.entities batch with
  | .error msg => (g, .error msg)
  | .ok (es2, results) => ({ g with entities := es2 }, .ok results)

/-- The entity filter predicate of searchNodes (part_000 lines 149-153). -/
def matchesQuery (query : String) (e : Entity) : Bool :=
  lcIncludes e.name query || lcIncludes e.entityType query ||
    e.observations.any (fun o => lcIncludes o query)

/-- KnowledgeGraphManager.searchNodes (part_000 lines 145-167). -/
def searchNodes (g : KnowledgeGraph) (query : String) : KnowledgeGraph :=
  let filteredEntities := g.entities.filter (fun e => matchesQuery query e)
  let filteredEntityNames := filteredEntities.map (fun e => e.name)
  let filteredRelations := g.relations.filter (fun r =>
    filteredEntityNames.contains r.«from» && filteredEntityNames.contains r.«to»)
  { entities := filteredEntities, relations := filteredRelations }

/- Thought Chain Store. -/

/-- The fresh chain record built when thinking[id] is absent (part_000 lines
197-206). -/
def newChain (id context : String) (now : Nat) : ThoughtChain :=
  { id := id, context := context, thoughts := [], branches := [],
    createdAt := now, updatedAt := now }

/-- The chain identifier resolved by storeThought: input.branchId || generateId(). -/
def targetChainId (input : ThoughtData) (freshId : String) : String :=
  orElseStr input.branchId freshId

/-- The chain storeThought starts from: the existing record under the resolved
identifier, or the freshly created one. -/
def priorChain (thinking : List (String × ThoughtChain)) (input : ThoughtData)
    (now : Nat) (freshId : String) : ThoughtChain :=
  (getKey thinking (targetChainId input freshId)).getD
    (newChain (targetChainId input freshId) (orElseStr input.context "default") now)

/-- The stored thought: the input spread with timestamp = Date.now()
(part_000 lines 212-215). -/
def stamp (input : ThoughtData) (now : Nat) : ThoughtData :=
  { input with timestamp := some now }

/-- ThinkingManager.storeThought (part_000 lines 192-228) on the in-memory
chain map; Date.now() is the parameter now, generateId() the parameter freshId. -/
def storeThought (thinking : List (String × ThoughtChain)) (input : ThoughtData)
    (now : Nat) (freshId : String) : List (String × ThoughtChain) × String :=
  let id := targetChainId input freshId
  let chain1 := { priorChain thinking input now freshId with updatedAt := now }
  let stamped := stamp input now
  let chain2 :=
    if truthyNum input.branchFromThought && truthyStr input.branchId then
      let bid := input.branchId.getD ""
      let branch := (getKey chain1.branches bid).getD []
      { chain1 with branches := setKey chain1.branches bid (branch ++ [stamped]) }
    else
      { chain1 with thoughts := chain1.thoughts ++ [stamped] }
  (setKey thinking id chain2, id)

/- Orchestrator. -/

/-- A JavaScript value, as far as validateInput inspects one. -/
inductive JSValue where
  | undefined
  | null
  | bool (b : Bool)
  | num (q : Rat)
  | str (s : String)
deriving DecidableEq

/-- JS truthiness of a value. -/
def jsTruthy : JSValue → Bool
  | .undefined => false
  | .null => false
  | .bool b => b
  | .num q => q != 0
  | .str s => s != ""

/-- typeof v === 'string'. -/
def isString : JSValue → Bool
  | .str _ => true
  | _ => false

/-- typeof v === 'number'. -/
def isNumber : JSValue → Bool
  | .num _ => true
  | _ => false

/-- typeof v === 'boolean'. -/
def isBoolean : JSValue → Bool
  | .bool _ => true
  | _ => false

/-- The raw request as validateInput sees it: the four validated fields can
hold any JS value; the remaining fields are kept at their schema type or
absent, since the pipeline reads them only through truthiness and spread. -/
structure RawInput where
  thought : JSValue := .undefined
  thoughtNumber : JSValue := .undefined
  totalThoughts : JSValue := .undefined
  nextThoughtNeeded : JSValue := .undefined
  isRevision : Option Bool := none
  revisesThought : Option Rat := none
  branchFromThought : Option Rat := none
  branchId : Option String := none
  needsMoreThoughts : Option Bool := none
  context : Option String := none
  storeInMemory : Option Bool := none
  retrieveFromMemory : Option Bool := none
deriving DecidableEq

/-- MemoryThinkingManager.validateInput (part_000 lines 340-355). -/
def validateInput (data : RawInput) : Except String Unit :=
  if !(jsTruthy data.thought) || !(isString data.thought) then
    .error "Invalid thought: must be a string"
  else if !(jsTruthy data.thoughtNumber) || !(isNumber data.thoughtNumber) then
    .error "Invalid thoughtNumber: must be a number"
  else if !(jsTruthy data.totalThoughts) || !(isNumber data.totalThoughts) then
    .error "Invalid totalThoughts: must be a number"
  else if !(isBoolean data.nextThoughtNeeded) then
    .error "Invalid nextThoughtNeeded: must be a boolean"
  else .ok ()

/-- String payload of a validated JS value. -/
def JSValue.asStr : JSValue → String
  | .str s => s
  | _ => ""

/-- Numeric payload of a validated JS value. -/
def JSValue.asNum : JSValue → Rat
  | .num q => q
  | _ => 0

/-- Boolean payload of a validated JS value. -/
def JSValue.asBool : JSValue → Bool
  | .bool b => b
  | _ => false

/-- Projection of a raw request to the typed input; after validateInput
succeeds the four required fields carry exactly these types, so the
projection is lossless on the inputs it is applied to. -/
def decodeInput (r : RawInput) : ThoughtData :=
  { thought := r.thought.asStr
    thoughtNumber := r.thoughtNumber.asNum
    totalThoughts := r.totalThoughts.asNum
    nextThoughtNeeded := r.nextThoughtNeeded.asBool
    isRevision := r.isRevision
    revisesThought := r.revisesThought
    branchFromThought := r.branchFromThought
    branchId := r.branchId
    needsMoreThoughts := r.needsMoreThoughts
    context := r.context
    storeInMemory := r.storeInMemory
    retrieveFromMemory := r.retrieveFromMemory }

deriving instance DecidableEq for Except

/-- The two backing files. An error value models a file whose load throws
(unreadable or corrupt); absence of the file is already folded into the empty
ok state by the source's ENOENT handlers. -/
structure MemoryState where
  graphFile : Except String KnowledgeGraph
  thinkingFile : Except String (List (String × ThoughtChain))
deriving DecidableEq

/-- The success payload serialized at part_000 lines 313-323; relevantContext
keeps the entity and relation counts. -/
structure ProcessResult where
  thoughtNumber : Rat
  totalThoughts : Rat
  nextThoughtNeeded : Bool
  thoughtChainId : String
  relevantContext : Option (Nat × Nat)
  contextStored : Bool
deriving DecidableEq

/-- The shape of a processThought response: a success payload, or the
structured failure payload produced by the catch block (part_000 lines 326-337). -/
inductive ProcessResponse where
  | ok (r : ProcessResult)
  | failure (msg : String)
deriving DecidableEq

/-- Whether the response carries isError: true. -/
def ProcessResponse.isError : ProcessResponse → Bool
  | .ok _ => false
  | .failure _ => true

/-- Step 2 of processThought (part_000 lines 276-278): if thoughtNumber
exceeds totalThoughts, raise totalThoughts to thoughtNumber. -/
def normalizeTotals (input : ThoughtData) : ThoughtData :=
  if input.totalThoughts < input.thoughtNumber
  then { input with totalThoughts := input.thoughtNumber } else input

/-- MemoryThinkingManager.processThought (part_000 lines 267-338) on a
validated input: normalize totalThoughts, optional graph search, unconditional
chain append, optional graph write-back, response shaping. Every throw is
caught at the function boundary and turned into a failure response, with the
stores left as the already-completed steps wrote them. -/
def processThought (s : MemoryState) (input0 : ThoughtData) (now : Nat)
    (freshId : String) : MemoryState × ProcessResponse :=
  let input := normalizeTotals input0
  let retrieved : Except String (Option KnowledgeGraph) :=
    if truthyBool input.retrieveFromMemory && truthyStr input.context then
      match s.graphFile with
      | .error msg => .error msg
      | .ok g => .ok (some (searchNodes g (input.context.getD "")))
    else .ok none
  match retrieved with
  | .error msg => (s, .failure msg)
  | .ok relevantContext =>
    match s.thinkingFile with
    | .error msg => (s, .failure msg)
    | .ok thinking =>
      let stored := storeThought thinking input now freshId
      let thoughtChainId := stored.2
      let s1 : MemoryState := { s with thinkingFile := .ok stored.1 }
      let afterInsight : MemoryState × Option String :=
        if truthyBool input.storeInMemory && truthyStr input.context then
          match s1.graphFile with
          | .error msg => (s1, some msg)
          | .ok g =>
            let step1 := createEntities g
              [{ name := input.context.getD "", entityType := "ThoughtContext",
                 observations := [input.thought] }]
            let step2 := createRelations step1.1
              [{ «from» := input.context.getD "",
                 «to» := "ThoughtChain_" ++ thoughtChainId,
                 relationType := "has_thinking_process" }]
            ({ s1 with graphFile := .ok step2.1 }, none)
        else (s1, none)
      match afterInsight with
      | (s2, some msg) => (s2, .failure msg)
      | (s2, none) =>
        (s2, .ok
          { thoughtNumber := input.thoughtNumber
            totalThoughts := input.totalThoughts
            nextThoughtNeeded := input.nextThoughtNeeded
            thoughtChainId := thoughtChainId
            relevantContext := relevantContext.map
              (fun g => (g.entities.length, g.relations.length))
            contextStored := truthyBool input.storeInMemory })

/-- The full request handler: validate, then run the pipeline; a validation
throw is caught before any store is touched. -/
def processThoughtRaw (s : MemoryState) (r : RawInput) (now : Nat)
    (freshId : String) : MemoryState × ProcessResponse :=
  match validateInput r with
  | .error msg => (s, .failure msg)
  | .ok _ => processThought s (decodeInput r) now freshId


/-- Fixture input that routes to a branch (used by concrete witnesses). -/
def branchInput : ThoughtData :=
  { thought := "t", thoughtNumber := 1, totalThoughts := 1,
    nextThoughtNeeded := true, branchFromThought := some 2, branchId := some "b" }

/-- Fixture input carrying a branch identifier but no branch point. -/
def mainlineInput : ThoughtData :=
  { thought := "t", thoughtNumber := 1, totalThoughts := 1,
    nextThoughtNeeded := true, branchId := some "b" }

/-- Fixture chain map holding one existing chain under key "b". -/
def fixThinking : List (String × ThoughtChain) :=
  [("b", ⟨"b", "topic", [], [("old", [])], 3, 3⟩)]


/-- Fixture graph used to exercise searchNodes. -/
def gFix : KnowledgeGraph :=
  ⟨[⟨"Apple", "Fruit", []⟩, ⟨"dog", "Animal", ["likes APPles"]⟩, ⟨"x", "y", []⟩],
   [⟨"Apple", "dog", "r"⟩, ⟨"Apple", "x", "r"⟩]⟩

/- Helper lemmas. -/

theorem getKey_setKey_self {α : Type} (m : List (String × α)) (k : String) (v : α) :
    getKey (setKey m k v) k = some v := by
  induction m with
  | nil => simp [getKey, setKey]
  | cons p rest ih =>
    obtain ⟨k2, v2⟩ := p
    by_cases h : k2 = k
    · subst h
      simp [getKey, setKey]
    · simp only [setKey, beq_iff_eq, if_neg h]
      simp only [getKey, beq_iff_eq, if_neg h]
      exact ih

theorem getKey_setKey_ne {α : Type} (m : List (String × α)) (k k2 : String) (v : α)
    (h : k2 ≠ k) : getKey (setKey m k v) k2 = getKey m k2 := by
  have hne : ¬ k = k2 := fun e => h (Eq.symm e)
  induction m with
  | nil => simp [getKey, setKey, beq_iff_eq, hne]
  | cons p rest ih =>
    obtain ⟨k3, v3⟩ := p
    by_cases h3 : k3 = k
    · subst h3
      simp [getKey, setKey, beq_iff_eq, hne]
    · simp only [setKey, beq_iff_eq, if_neg h3]
      simp only [getKey, beq_iff_eq]
      by_cases h4 : k3 = k2
      · simp [h4]
      · simp [h4, ih]

theorem normalizeTotals_retrieveFromMemory (i : ThoughtData) :
    (normalizeTotals i).retrieveFromMemory = i.retrieveFromMemory := by
  unfold normalizeTotals; split <;> rfl

theorem normalizeTotals_context (i : ThoughtData) :
    (normalizeTotals i).context = i.context := by
  unfold normalizeTotals; split <;> rfl

theorem normalizeTotals_storeInMemory (i : ThoughtData) :
    (normalizeTotals i).storeInMemory = i.storeInMemory := by
  unfold normalizeTotals; split <;> rfl

theorem normalizeTotals_branchId (i : ThoughtData) :
    (normalizeTotals i).branchId = i.branchId := by
  unfold normalizeTotals; split <;> rfl

theorem normalizeTotals_branchFromThought (i : ThoughtData) :
    (normalizeTotals i).branchFromThought = i.branchFromThought := by
  unfold normalizeTotals; split <;> rfl

theorem truthyBool_eq_getD (v : Option Bool) : truthyBool v = v.getD false := by
  cases v <;> rfl

/- Claims. -/

/-- C1 counterexample: with the Graph Store backing file unreadable, a request
asking for retrieval fails as a whole (isError true) and the Chain Store is
left untouched — the thought is not appended. -/
theorem claim_C1_counterexample :
    (processThought ⟨.error "EACCES", .ok []⟩
      { thought := "t", thoughtNumber := 1, totalThoughts := 1,
        nextThoughtNeeded := true, context := some "topic",
        retrieveFromMemory := some true } 7 "gen") =
      (⟨.error "EACCES", .ok []⟩, .failure "EACCES") := by decide

/-- C1 (amended): if the Graph Store search of step 3 raises an error, the
request does fail: the error is caught only at the Orchestrator boundary and
becomes the structured failure response, and the thought is not appended to
the Chain Store (step 4 never runs) — the stores are returned exactly as they
were. -/
theorem claim_C1_theorem (s : MemoryState) (input : ThoughtData) (now : Nat)
    (freshId : String) (msg : String)
    (hret : truthyBool input.retrieveFromMemory = true)
    (hctx : truthyStr input.context = true)
    (hg : s.graphFile = .error msg) :
    processThought s input now freshId = (s, .failure msg) := by
  unfold processThought
  simp only [normalizeTotals_retrieveFromMemory, normalizeTotals_context,
    hret, hctx, Bool.and_self, if_true, hg]

/-- C1 witness: the amended theorem applied at a concrete state and input. -/
theorem claim_C1_witness :
    processThought ⟨.error "disk failure", .ok [("c", ⟨"c", "d", [], [], 1, 1⟩)]⟩
      { thought := "w", thoughtNumber := 2, totalThoughts := 2,
        nextThoughtNeeded := false, context := some "k",
        retrieveFromMemory := some true } 9 "fresh" =
      (⟨.error "disk failure", .ok [("c", ⟨"c", "d", [], [], 1, 1⟩)]⟩,
        .failure "disk failure") :=
  claim_C1_theorem _ _ 9 "fresh" "disk failure" rfl rfl rfl

/-- C5: creating a single entity under a fresh name returns exactly that
entity and appends it; an identical second call returns the empty sequence
and leaves the graph (including the existing entity's entityType and
observations) unchanged. -/
theorem claim_C5_theorem (g : KnowledgeGraph) (e : Entity)
    (h : ∀ e0 ∈ g.entities, e0.name ≠ e.name) :
    createEntities g [e] = ({ g with entities := g.entities ++ [e] }, [e]) ∧
    (createEntities (createEntities g [e]).1 [e]).2 = [] ∧
    (createEntities (createEntities g [e]).1 [e]).1 = (createEntities g [e]).1 := by
  have hany : (g.entities.any (fun ex => ex.name == e.name)) = false := by
    simp only [List.any_eq_false, beq_iff_eq]
    exact h
  have h1 : createEntities g [e] = ({ g with entities := g.entities ++ [e] }, [e]) := by
    simp [createEntities, List.filter, hany]
  have h2 : (List.filter
      (fun e2 => !(g.entities ++ [e]).any (fun ex => ex.name == e2.name)) [e]) = [] := by
    have : ((g.entities ++ [e]).any (fun ex => ex.name == e.name)) = true := by
      simp [List.any_eq_true]
    simp [List.filter, this]
  refine ⟨h1, ?_, ?_⟩
  · rw [h1]
    simp only [createEntities, h2]
  · rw [h1]
    simp only [createEntities, h2]
    simp

/-- C5 witness: the theorem applied to a concrete graph and entity. -/
theorem claim_C5_witness :
    createEntities ⟨[⟨"a", "t", []⟩], []⟩ [⟨"n", "ThoughtContext", ["o"]⟩] =
        (⟨[⟨"a", "t", []⟩, ⟨"n", "ThoughtContext", ["o"]⟩], []⟩,
          [⟨"n", "ThoughtContext", ["o"]⟩]) ∧
    (createEntities (createEntities ⟨[⟨"a", "t", []⟩], []⟩
        [⟨"n", "ThoughtContext", ["o"]⟩]).1 [⟨"n", "ThoughtContext", ["o"]⟩]).2 = [] ∧
    (createEntities (createEntities ⟨[⟨"a", "t", []⟩], []⟩
        [⟨"n", "ThoughtContext", ["o"]⟩]).1 [⟨"n", "ThoughtContext", ["o"]⟩]).1 =
      (createEntities ⟨[⟨"a", "t", []⟩], []⟩ [⟨"n", "ThoughtContext", ["o"]⟩]).1 :=
  claim_C5_theorem ⟨[⟨"a", "t", []⟩], []⟩ ⟨"n", "ThoughtContext", ["o"]⟩ (by decide)

/-- C9: when the request carries no context, the store-insight step is
skipped and the Graph Store is untouched, yet the response succeeds and
reports contextStored equal to the request's storeInMemory flag (false when
absent) — in particular true when storeInMemory is true although nothing was
stored. -/
theorem claim_C9_theorem (s : MemoryState) (input : ThoughtData) (now : Nat)
    (freshId : String) (thinking : List (String × ThoughtChain))
    (hth : s.thinkingFile = .ok thinking)
    (hctx : input.context = none) :
    (processThought s input now freshId).1.graphFile = s.graphFile ∧
    ∃ res, (processThought s input now freshId).2 = .ok res ∧
      res.contextStored = input.storeInMemory.getD false := by
  unfold processThought
  simp only [normalizeTotals_context, hctx, normalizeTotals_storeInMemory,
    normalizeTotals_retrieveFromMemory, hth]
  simp only [truthyStr, Bool.and_false, if_neg (by simp : ¬(false = true))]
  exact ⟨trivial, _, rfl, truthyBool_eq_getD _⟩

/-- C9 witness: with storeInMemory true and no context, the response has
contextStored true while the graph file is untouched. -/
theorem claim_C9_witness :
    (processThought ⟨.ok ⟨[], []⟩, .ok []⟩
      { thought := "t", thoughtNumber := 1, totalThoughts := 1,
        nextThoughtNeeded := true, storeInMemory := some true } 7 "gen").1.graphFile =
        (⟨.ok ⟨[], []⟩, .ok []⟩ : MemoryState).graphFile ∧
    ∃ res, (processThought ⟨.ok ⟨[], []⟩, .ok []⟩
      { thought := "t", thoughtNumber := 1, totalThoughts := 1,
        nextThoughtNeeded := true, storeInMemory := some true } 7 "gen").2 = .ok res ∧
      res.contextStored = (some true).getD false :=
  claim_C9_theorem ⟨.ok ⟨[], []⟩, .ok []⟩
    { thought := "t", thoughtNumber := 1, totalThoughts := 1,
      nextThoughtNeeded := true, storeInMemory := some true } 7 "gen" [] rfl rfl

theorem validateInput_fails (r : RawInput)
    (h : (!(jsTruthy r.thought) || !(isString r.thought)
        || !(jsTruthy r.thoughtNumber) || !(isNumber r.thoughtNumber)
        || !(jsTruthy r.totalThoughts) || !(isNumber r.totalThoughts)
        || !(isBoolean r.nextThoughtNeeded)) = true) :
    ∃ msg, validateInput r = .error msg := by
  unfold validateInput
  by_cases h1 : (!(jsTruthy r.thought) || !(isString r.thought)) = true
  · rw [if_pos h1]; exact ⟨_, rfl⟩
  · rw [if_neg h1]
    by_cases h2 : (!(jsTruthy r.thoughtNumber) || !(isNumber r.thoughtNumber)) = true
    · rw [if_pos h2]; exact ⟨_, rfl⟩
    · rw [if_neg h2]
      by_cases h3 : (!(jsTruthy r.totalThoughts) || !(isNumber r.totalThoughts)) = true
      · rw [if_pos h3]; exact ⟨_, rfl⟩
      · rw [if_neg h3]
        by_cases h4 : (!(isBoolean r.nextThoughtNeeded)) = true
        · rw [if_pos h4]; exact ⟨_, rfl⟩
        · exfalso
          simp only [Bool.or_eq_true, Bool.not_eq_true] at h h1 h2 h3 h4
          rcases h with ((((((ha | ha) | ha) | ha) | ha) | ha) | ha) <;> simp_all

/-- C2 counterexample: thoughtNumber = -1 is not a positive integer, yet the
request passes validation and is processed without error (isError false); the
validator only checks truthiness and typeof, so negative (and non-integral)
numbers slip through. -/
theorem claim_C2_counterexample :
    ((processThoughtRaw ⟨.ok ⟨[], []⟩, .ok []⟩
      { thought := .str "a", thoughtNumber := .num (-1), totalThoughts := .num 3,
        nextThoughtNeeded := .bool true } 5 "gen").2).isError = false := by decide

/-- C2 (amended): if thought is absent, not a string, or empty; or
thoughtNumber or totalThoughts is absent, not a number, or equal to 0; or
nextThoughtNeeded is not a boolean — then processing fails with the
validation failure response (isError true) and neither the Chain Store nor
the Graph Store is mutated. (Negative and non-integral numeric values of
thoughtNumber / totalThoughts are not rejected.) -/
theorem claim_C2_theorem (s : MemoryState) (r : RawInput) (now : Nat)
    (freshId : String)
    (h : (!(jsTruthy r.thought) || !(isString r.thought)
        || !(jsTruthy r.thoughtNumber) || !(isNumber r.thoughtNumber)
        || !(jsTruthy r.totalThoughts) || !(isNumber r.totalThoughts)
        || !(isBoolean r.nextThoughtNeeded)) = true) :
    (processThoughtRaw s r now freshId).1 = s ∧
      ((processThoughtRaw s r now freshId).2).isError = true := by
  obtain ⟨msg, hv⟩ := validateInput_fails r h
  unfold processThoughtRaw
  rw [hv]
  exact ⟨rfl, rfl⟩

/-- C2 witness: a request missing nextThoughtNeeded fails with isError true
and leaves both stores untouched. -/
theorem claim_C2_witness :
    (processThoughtRaw ⟨.ok ⟨[⟨"e", "t", ["o"]⟩], []⟩, .ok []⟩
      { thought := .str "a", thoughtNumber := .num 1, totalThoughts := .num 1 }
      5 "gen").1 = ⟨.ok ⟨[⟨"e", "t", ["o"]⟩], []⟩, .ok []⟩ ∧
    ((processThoughtRaw ⟨.ok ⟨[⟨"e", "t", ["o"]⟩], []⟩, .ok []⟩
      { thought := .str "a", thoughtNumber := .num 1, totalThoughts := .num 1 }
      5 "gen").2).isError = true :=
  claim_C2_theorem ⟨.ok ⟨[⟨"e", "t", ["o"]⟩], []⟩, .ok []⟩
    { thought := .str "a", thoughtNumber := .num 1, totalThoughts := .num 1 }
    5 "gen" (by decide)

theorem replaceFirst_forall {P : Entity → Prop} (es : List Entity) (n : String)
    (e2 : Entity) (hes : ∀ e ∈ es, P e) (he2 : P e2) :
    ∀ e ∈ replaceFirst es n e2, P e := by
  induction es with
  | nil => simp [replaceFirst]
  | cons e rest ih =>
    intro x hx
    simp only [replaceFirst] at hx
    split at hx
    · rcases List.mem_cons.mp hx with h1 | h1
      · exact h1 ▸ he2
      · exact hes x (List.mem_cons_of_mem _ h1)
    · rcases List.mem_cons.mp hx with h1 | h1
      · exact h1 ▸ hes e (List.mem_cons_self _ _)
      · exact ih (fun y hy => hes y (List.mem_cons_of_mem _ hy)) x h1

theorem addObsEntity_nodup (e : Entity) (contents : List String)
    (he : e.observations.Nodup) (hc : contents.Nodup) :
    (addObsEntity e contents).1.observations.Nodup := by
  simp only [addObsEntity]
  refine List.Nodup.append he (hc.filter _) ?_
  intro a ha hafil
  have hpa := List.of_mem_filter hafil
  simp only [List.contains, Bool.not_eq_true', List.elem_eq_mem,
    decide_eq_false_iff_not] at hpa
  exact hpa ha

theorem addObsLoop_cons_none (es : List Entity) (name : String)
    (contents : List String) (rest : List (String × List String))
    (hfind : es.find? (fun e => e.name == name) = none) :
    addObsLoop es ((name, contents) :: rest) =
      .error ("Entity with name " ++ name ++ " not found") := by
  simp [addObsLoop, hfind]

theorem addObsLoop_cons_some (es : List Entity) (name : String)
    (contents : List String) (rest : List (String × List String)) (e : Entity)
    (hfind : es.find? (fun e => e.name == name) = some e) :
    addObsLoop es ((name, contents) :: rest) =
      match addObsLoop (replaceFirst es name (addObsEntity e contents).1) rest with
      | .error msg => .error msg
      | .ok (es2, results) => .ok (es2, (name, (addObsEntity e contents).2) :: results) := by
  simp [addObsLoop, hfind]

theorem addObsLoop_nodup (batch : List (String × List String)) :
    ∀ es es2 res, (∀ e ∈ es, e.observations.Nodup) →
      (∀ p ∈ batch, (p.2 : List String).Nodup) →
      addObsLoop es batch = .ok (es2, res) →
      (∀ e ∈ es2, e.observations.Nodup) ∧
        ∀ p ∈ res, (p.2 : List String).Nodup := by
  induction batch with
  | nil =>
    intro es es2 res hes _ h
    simp only [addObsLoop, Except.ok.injEq, Prod.mk.injEq] at h
    obtain ⟨h1, h2⟩ := h
    subst h1; subst h2
    exact ⟨hes, by simp⟩
  | cons q rest ih =>
    intro es es2 res hes hb h
    obtain ⟨name, contents⟩ := q
    cases hfind : es.find? (fun e => e.name == name) with
    | none => rw [addObsLoop_cons_none es name contents rest hfind] at h; simp at h
    | some e =>
      rw [addObsLoop_cons_some es name contents rest e hfind] at h
      have hmem : e ∈ es := List.mem_of_find?_eq_some hfind
      have hstep : (addObsEntity e contents).1.observations.Nodup :=
        addObsEntity_nodup e contents (hes e hmem)
          (hb (name, contents) (List.mem_cons_self _ _))
      cases hrec : addObsLoop (replaceFirst es name (addObsEntity e contents).1) rest with
      | error msg => rw [hrec] at h; simp at h
      | ok pr =>
        obtain ⟨es3, results⟩ := pr
        rw [hrec] at h
        simp only [Except.ok.injEq, Prod.mk.injEq] at h
        obtain ⟨h1, h2⟩ := h
        subst h1; subst h2
        have hinv : ∀ x ∈ replaceFirst es name (addObsEntity e contents).1,
            x.observations.Nodup :=
          replaceFirst_forall es name _ hes hstep
        have := ih _ es3 results hinv
          (fun p hp => hb p (List.mem_cons_of_mem _ hp)) hrec
        refine ⟨this.1, ?_⟩
        intro p hp
        rcases List.mem_cons.mp hp with h1 | h1
        · subst h1
          exact List.Nodup.filter _ (hb (name, contents) (List.mem_cons_self _ _))
        · exact this.2 p h1

/-- C3 counterexample: a contents sequence repeating the same new string
stores it twice — the entity ends with observations ["x", "x"] and
addedObservations reports the string twice as well. -/
theorem claim_C3_counterexample :
    (addObservations ⟨[⟨"E", "T", []⟩], []⟩ [("E", ["x", "x"])]).1.entities =
        [⟨"E", "T", ["x", "x"]⟩] ∧
    (addObservations ⟨[⟨"E", "T", []⟩], []⟩ [("E", ["x", "x"])]).2 =
        .ok [("E", ["x", "x"])] := by
  constructor <;> decide

/-- C3 (amended): addObservations filters each item's contents against the
target entity's observations at the moment that item is processed, so a
string already recorded (before the call, or by an earlier item of the same
batch) is never appended again; consequently, if every entity's observations
were duplicate-free before a successful call and no item's contents sequence
repeats a string, then afterwards every entity's observations still contain
any given literal string at most once, and every returned addedObservations
list is duplicate-free. (A contents sequence that repeats a new string
appends and reports it once per occurrence.) -/
theorem claim_C3_theorem (g : KnowledgeGraph) (batch : List (String × List String))
    (g2 : KnowledgeGraph) (res : List (String × List String))
    (hg : ∀ e ∈ g.entities, e.observations.Nodup)
    (hb : ∀ p ∈ batch, (p.2 : List String).Nodup)
    (h : addObservations g batch = (g2, .ok res)) :
    (∀ e ∈ g2.entities, e.observations.Nodup) ∧
      ∀ p ∈ res, (p.2 : List String).Nodup := by
  unfold addObservations at h
  cases hloop : addObsLoop g.entities batch with
  | error msg => rw [hloop] at h; simp at h
  | ok pr =>
    obtain ⟨es2, results⟩ := pr
    rw [hloop] at h
    simp only [Prod.mk.injEq, Except.ok.injEq] at h
    obtain ⟨h1, h2⟩ := h
    subst h2
    have hn := addObsLoop_nodup batch g.entities es2 results hg hb hloop
    rw [← h1]
    exact hn

/-- C3 witness: a batch that re-sends an already recorded string plus one new
string yields duplicate-free observations and addedObservations. -/
theorem claim_C3_witness :
    (∀ e ∈ (⟨[⟨"E", "T", ["a", "b"]⟩], []⟩ : KnowledgeGraph).entities,
        e.observations.Nodup) ∧
      ∀ p ∈ [("E", ["b"])], (p.2 : List String).Nodup :=
  claim_C3_theorem ⟨[⟨"E", "T", ["a"]⟩], []⟩ [("E", ["a", "b"])]
    ⟨[⟨"E", "T", ["a", "b"]⟩], []⟩ [("E", ["b"])]
    (by decide) (by decide) (by decide)

theorem addObsLoop_error (batch : List (String × List String)) :
    ∀ es (p : String × List String), p ∈ batch → (∀ e ∈ es, e.name ≠ p.1) →
      ∃ msg, addObsLoop es batch = .error msg := by
  induction batch with
  | nil => intro es p hp; cases hp
  | cons q rest ih =>
    intro es p hp habs
    obtain ⟨name, contents⟩ := q
    rcases List.mem_cons.mp hp with h1 | h1
    · have hfind : es.find? (fun e => e.name == name) = none := by
        rw [List.find?_eq_none]
        intro e he
        simp only [beq_iff_eq]
        have := habs e he
        rw [h1] at this
        exact this
      exact ⟨_, addObsLoop_cons_none es name contents rest hfind⟩
    · cases hfind : es.find? (fun e => e.name == name) with
      | none => exact ⟨_, addObsLoop_cons_none es name contents rest hfind⟩
      | some e =>
        have hmem : e ∈ es := List.mem_of_find?_eq_some hfind
        have hes2 : ∀ x ∈ replaceFirst es name (addObsEntity e contents).1,
            x.name ≠ p.1 := by
          refine replaceFirst_forall es name _ habs ?_
          exact habs e hmem
        obtain ⟨msg, hmsg⟩ := ih _ p h1 hes2
        exact ⟨msg, by simp [addObsLoop, hfind, hmsg]⟩

/-- C4: an addObservations batch containing an item whose entityName names no
entity of the graph fails with the EntityNotFound error and leaves the
persisted graph exactly as it was — items preceding the failing one are not
persisted, because the single rewrite at the end is never reached. -/
theorem claim_C4_theorem (g : KnowledgeGraph) (batch : List (String × List String))
    (p : String × List String) (hp : p ∈ batch)
    (habs : ∀ e ∈ g.entities, e.name ≠ p.1) :
    (addObservations g batch).1 = g ∧
      ∃ msg, (addObservations g batch).2 = .error msg := by
  obtain ⟨msg, hmsg⟩ := addObsLoop_error batch g.entities p hp habs
  unfold addObservations
  rw [hmsg]
  exact ⟨rfl, msg, rfl⟩

/-- C4 witness: a two-item batch whose second item names an absent entity
fails and the graph is unchanged even though the first item had matched. -/
theorem claim_C4_witness :
    (addObservations ⟨[⟨"A", "T", []⟩], []⟩ [("A", ["x"]), ("B", ["y"])]).1 =
        ⟨[⟨"A", "T", []⟩], []⟩ ∧
      ∃ msg, (addObservations ⟨[⟨"A", "T", []⟩], []⟩
        [("A", ["x"]), ("B", ["y"])]).2 = .error msg :=
  claim_C4_theorem ⟨[⟨"A", "T", []⟩], []⟩ [("A", ["x"]), ("B", ["y"])]
    ("B", ["y"]) (by decide) (by decide)

theorem orElseStr_eq (v : Option String) (d : String) :
    orElseStr v d = if truthyStr v then v.getD "" else d := by
  cases v with
  | none => rfl
  | some s =>
    by_cases hs : s = ""
    · subst hs; rfl
    · simp [orElseStr, truthyStr, hs, bne_iff_ne]

/-- C6: when branchFromThought (an integer at least 1) and branchId (a
non-empty string) are both present, the stamped thought is appended to
chain.branches[branchId] (created empty if new) and never to chain.thoughts;
when they are not both present it is appended to chain.thoughts and no
branch sequence is created or extended; updatedAt is refreshed either way. -/
theorem claim_C6_theorem (thinking : List (String × ThoughtChain))
    (input : ThoughtData) (now : Nat) (freshId : String)
    (hbft : ∀ q : Rat, input.branchFromThought = some q → 1 ≤ q) :
    ∃ c2, getKey (storeThought thinking input now freshId).1
        (targetChainId input freshId) = some c2 ∧
      c2.updatedAt = now ∧
      (∀ n b, input.branchFromThought = some n → input.branchId = some b →
        b ≠ "" →
        c2.thoughts = (priorChain thinking input now freshId).thoughts ∧
        getKey c2.branches b =
          some ((getKey (priorChain thinking input now freshId).branches b).getD []
            ++ [stamp input now]) ∧
        ∀ k, k ≠ b → getKey c2.branches k =
          getKey (priorChain thinking input now freshId).branches k) ∧
      ((input.branchFromThought = none ∨ input.branchId = none ∨
          input.branchId = some "") →
        c2.thoughts = (priorChain thinking input now freshId).thoughts
            ++ [stamp input now] ∧
        c2.branches = (priorChain thinking input now freshId).branches) := by
  by_cases hc : (truthyNum input.branchFromThought && truthyStr input.branchId) = true
  · refine ⟨_, getKey_setKey_self thinking (targetChainId input freshId) _,
      ?_, ?_, ?_⟩
    · rw [if_pos hc]
    · intro n b h1 h2 hne
      rw [if_pos hc]
      refine ⟨rfl, ?_, ?_⟩
      · rw [h2]
        simp only [Option.getD_some]
        exact getKey_setKey_self _ _ _
      · intro k hk
        rw [h2]
        simp only [Option.getD_some]
        exact getKey_setKey_ne _ _ _ _ hk
    · intro h
      exfalso
      rcases h with h | h | h <;> rw [h] at hc <;>
        simp [truthyNum, truthyStr] at hc
  · refine ⟨_, getKey_setKey_self thinking (targetChainId input freshId) _,
      ?_, ?_, ?_⟩
    · rw [if_neg hc]
    · intro n b h1 h2 hne
      exfalso
      apply hc
      have hn : (1 : Rat) ≤ n := hbft n h1
      have hn0 : (n : Rat) ≠ 0 := by
        intro h0
        rw [h0] at hn
        norm_num at hn
      rw [h1, h2]
      simp [truthyNum, truthyStr, bne_iff_ne, hn0, hne]
    · intro h
      rw [if_neg hc]
      exact ⟨rfl, rfl⟩

/-- C6 witness: the theorem instantiated at a concrete branching input over
the empty chain map. -/
theorem claim_C6_witness :
    ∃ c2, getKey (storeThought [] branchInput 7 "gen").1
        (targetChainId branchInput "gen") = some c2 ∧
      c2.updatedAt = 7 ∧
      (∀ n b, branchInput.branchFromThought = some n →
        branchInput.branchId = some b → b ≠ "" →
        c2.thoughts = (priorChain [] branchInput 7 "gen").thoughts ∧
        getKey c2.branches b =
          some ((getKey (priorChain [] branchInput 7 "gen").branches b).getD []
            ++ [stamp branchInput 7]) ∧
        ∀ k, k ≠ b → getKey c2.branches k =
          getKey (priorChain [] branchInput 7 "gen").branches k) ∧
      ((branchInput.branchFromThought = none ∨ branchInput.branchId = none ∨
          branchInput.branchId = some "") →
        c2.thoughts = (priorChain [] branchInput 7 "gen").thoughts
            ++ [stamp branchInput 7] ∧
        c2.branches = (priorChain [] branchInput 7 "gen").branches) :=
  claim_C6_theorem [] branchInput 7 "gen"
    (by
      intro q hq
      rw [show branchInput.branchFromThought = some 2 from rfl,
        Option.some.injEq] at hq
      rw [← hq]
      norm_num)

/-- C8 counterexample: with branchId present but equal to the empty string,
the freshly generated identifier is used — a fresh id is minted although
branchId is not absent, refuting the "only when branchId is absent" clause. -/
theorem claim_C8_counterexample :
    (storeThought []
      { thought := "t", thoughtNumber := 1, totalThoughts := 1,
        nextThoughtNeeded := false, branchId := some "" } 7 "gen").2 = "gen" := by
  decide

/-- C8 (amended): the chain identifier returned by storeThought equals
input.branchId whenever branchId is a non-empty string — even when
branchFromThought is absent, in which case the thought is appended to the
main thoughts sequence of the chain whose id is the branch identifier — and
the freshly generated identifier is used exactly when branchId is absent or
is the empty string. -/
theorem claim_C8_theorem (thinking : List (String × ThoughtChain))
    (input : ThoughtData) (now : Nat) (freshId : String) :
    ((storeThought thinking input now freshId).2 =
      if truthyStr input.branchId then input.branchId.getD "" else freshId) ∧
    ∀ b, input.branchId = some b → b ≠ "" → input.branchFromThought = none →
      ∃ c2, getKey (storeThought thinking input now freshId).1 b = some c2 ∧
        c2.thoughts = (priorChain thinking input now freshId).thoughts
          ++ [stamp input now] := by
  constructor
  · exact orElseStr_eq input.branchId freshId
  · intro b hb hne hn
    have hc : (truthyNum input.branchFromThought && truthyStr input.branchId)
        = false := by
      rw [hn]
      rfl
    have hid : targetChainId input freshId = b := by
      unfold targetChainId orElseStr
      rw [hb]
      simp [hne]
    have h2 : (storeThought thinking input now freshId).1 =
        setKey thinking b { priorChain thinking input now freshId with
          updatedAt := now,
          thoughts := (priorChain thinking input now freshId).thoughts
            ++ [stamp input now] } := by
      simp only [storeThought]
      rw [if_neg (by simp [hc]), hid]
    refine ⟨{ priorChain thinking input now freshId with
        updatedAt := now,
        thoughts := (priorChain thinking input now freshId).thoughts
          ++ [stamp input now] }, ?_, rfl⟩
    rw [h2]
    exact getKey_setKey_self _ _ _

/-- C8 witness: the theorem applied at a concrete input with a non-empty
branchId and no branchFromThought. -/
theorem claim_C8_witness :
    ((storeThought [] mainlineInput 7 "gen").2 =
      if truthyStr mainlineInput.branchId then mainlineInput.branchId.getD ""
      else "gen") ∧
    (∃ c2, getKey (storeThought [] mainlineInput 7 "gen").1 "b" = some c2 ∧
      c2.thoughts = (priorChain [] mainlineInput 7 "gen").thoughts
        ++ [stamp mainlineInput 7]) :=
  ⟨(claim_C8_theorem [] mainlineInput 7 "gen").1,
    (claim_C8_theorem [] mainlineInput 7 "gen").2 "b" rfl (by decide) rfl⟩

/-- C10: appending to an already existing chain keeps the chain's id,
context and createdAt unchanged (the context of the later request is
ignored), refreshes updatedAt, modifies only the thoughts sequence or
exactly one branch sequence, and leaves every other chain of the stored
map unchanged. -/
theorem claim_C10_theorem (thinking : List (String × ThoughtChain))
    (input : ThoughtData) (now : Nat) (freshId : String) (c0 : ThoughtChain)
    (h : getKey thinking (targetChainId input freshId) = some c0) :
    ∃ c2, getKey (storeThought thinking input now freshId).1
        (targetChainId input freshId) = some c2 ∧
      c2.id = c0.id ∧ c2.context = c0.context ∧ c2.createdAt = c0.createdAt ∧
      c2.updatedAt = now ∧
      (∀ k, k ≠ targetChainId input freshId →
        getKey (storeThought thinking input now freshId).1 k = getKey thinking k) ∧
      ((c2.thoughts = c0.thoughts ++ [stamp input now] ∧ c2.branches = c0.branches) ∨
        ∃ b, input.branchId = some b ∧ c2.thoughts = c0.thoughts ∧
          getKey c2.branches b =
            some ((getKey c0.branches b).getD [] ++ [stamp input now]) ∧
          ∀ k, k ≠ b → getKey c2.branches k = getKey c0.branches k) := by
  have hp : priorChain thinking input now freshId = c0 := by
    unfold priorChain
    rw [h]
    rfl
  by_cases hc : (truthyNum input.branchFromThought && truthyStr input.branchId) = true
  · have hb : ∃ b, input.branchId = some b ∧ b ≠ "" := by
      cases hbid : input.branchId with
      | none => rw [hbid] at hc; simp [truthyStr] at hc
      | some s =>
        refine ⟨s, rfl, ?_⟩
        intro hs
        rw [hbid, hs] at hc
        simp [truthyStr] at hc
    obtain ⟨b, hbid, hbne⟩ := hb
    refine ⟨_, getKey_setKey_self thinking (targetChainId input freshId) _,
      ?_, ?_, ?_, ?_, ?_, ?_⟩
    · rw [if_pos hc, hp]
    · rw [if_pos hc, hp]
    · rw [if_pos hc, hp]
    · rw [if_pos hc]
    · intro k hk
      exact getKey_setKey_ne _ _ _ _ hk
    · refine Or.inr ⟨b, hbid, ?_, ?_, ?_⟩
      · rw [if_pos hc, hp]
      · rw [if_pos hc, hp, hbid]
        simp only [Option.getD_some]
        exact getKey_setKey_self _ _ _
      · intro k hk
        rw [if_pos hc, hp, hbid]
        simp only [Option.getD_some]
        exact getKey_setKey_ne _ _ _ _ hk
  · refine ⟨_, getKey_setKey_self thinking (targetChainId input freshId) _,
      ?_, ?_, ?_, ?_, ?_, ?_⟩
    · rw [if_neg hc, hp]
    · rw [if_neg hc, hp]
    · rw [if_neg hc, hp]
    · rw [if_neg hc]
    · intro k hk
      exact getKey_setKey_ne _ _ _ _ hk
    · exact Or.inl ⟨by rw [if_neg hc, hp], by rw [if_neg hc, hp]⟩

/-- C10 witness: the theorem applied to a concrete existing chain, with a
request whose context differs from the stored one. -/
theorem claim_C10_witness :
    ∃ c2, getKey (storeThought fixThinking mainlineInput 9 "gen").1
        (targetChainId mainlineInput "gen") = some c2 ∧
      c2.id = "b" ∧ c2.context = "topic" ∧ c2.createdAt = 3 ∧
      c2.updatedAt = 9 ∧
      (∀ k, k ≠ targetChainId mainlineInput "gen" →
        getKey (storeThought fixThinking mainlineInput 9 "gen").1 k =
          getKey fixThinking k) ∧
      ((c2.thoughts = [] ++ [stamp mainlineInput 9] ∧
          c2.branches = [("old", [])]) ∨
        ∃ b, mainlineInput.branchId = some b ∧ c2.thoughts = [] ∧
          getKey c2.branches b =
            some ((getKey [("old", ([] : List ThoughtData))] b).getD []
              ++ [stamp mainlineInput 9]) ∧
          ∀ k, k ≠ b → getKey c2.branches k =
            getKey [("old", ([] : List ThoughtData))] k) :=
  claim_C10_theorem fixThinking mainlineInput 9 "gen"
    ⟨"b", "topic", [], [("old", [])], 3, 3⟩ (by decide)

/-- C7: every relation returned by search has both endpoints among the names
of the returned entities, and an entity is returned exactly when the query is
a case-insensitive substring of its name, its entityType, or at least one of
its observations. -/
theorem claim_C7_theorem (g : KnowledgeGraph) (q : String) :
    (∀ r ∈ (searchNodes g q).relations,
      (∃ e ∈ (searchNodes g q).entities, e.name = r.«from») ∧
      (∃ e ∈ (searchNodes g q).entities, e.name = r.«to»)) ∧
    (∀ e, e ∈ (searchNodes g q).entities ↔
      e ∈ g.entities ∧
        (lowerChars q <:+: lowerChars e.name ∨
         lowerChars q <:+: lowerChars e.entityType ∨
         ∃ o ∈ e.observations, lowerChars q <:+: lowerChars o)) := by
  simp only [searchNodes]
  constructor
  · intro r hr
    rw [List.mem_filter] at hr
    obtain ⟨hmem, hp⟩ := hr
    rw [Bool.and_eq_true] at hp
    obtain ⟨hfrom, hto⟩ := hp
    constructor
    · simp only [List.contains, List.elem_eq_mem, decide_eq_true_eq,
        List.mem_map] at hfrom
      obtain ⟨e, he, hename⟩ := hfrom
      exact ⟨e, he, hename⟩
    · simp only [List.contains, List.elem_eq_mem, decide_eq_true_eq,
        List.mem_map] at hto
      obtain ⟨e, he, hename⟩ := hto
      exact ⟨e, he, hename⟩
  · intro e
    rw [List.mem_filter]
    constructor
    · rintro ⟨hm, hq⟩
      refine ⟨hm, ?_⟩
      simpa [matchesQuery, lcIncludes, List.any_eq_true, or_assoc] using hq
    · rintro ⟨hm, hq⟩
      refine ⟨hm, ?_⟩
      simpa [matchesQuery, lcIncludes, List.any_eq_true, or_assoc] using hq

/-- C7 witness: the theorem applied to a concrete graph and query, at the
returned relation and at a concrete matching entity. -/
theorem claim_C7_witness :
    ((∃ e ∈ (searchNodes gFix "apple").entities, e.name = "Apple") ∧
      (∃ e ∈ (searchNodes gFix "apple").entities, e.name = "dog")) ∧
    ((⟨"dog", "Animal", ["likes APPles"]⟩ : Entity) ∈
        (searchNodes gFix "apple").entities ↔
      (⟨"dog", "Animal", ["likes APPles"]⟩ : Entity) ∈ gFix.entities ∧
        (lowerChars "apple" <:+: lowerChars "dog" ∨
         lowerChars "apple" <:+: lowerChars "Animal" ∨
         ∃ o ∈ ["likes APPles"], lowerChars "apple" <:+: lowerChars o)) :=
  ⟨(claim_C7_theorem gFix "apple").1 ⟨"Apple", "dog", "r"⟩ (by decide),
    (claim_C7_theorem gFix "apple").2 ⟨"dog", "Animal", ["likes APPles"]⟩⟩

end MemoryThinking
